import Mathlib

/-!
# Gameplay session lifecycle and statistics of `server.js`

A shallow embedding of the gameplay handlers of `src/server.js`
(`/api/gameplay/start`, `/end`, `/ping`, `/stats`, `/public/:username`).

* MongoDB collections are lists of documents in insertion (natural) order;
  `findOne` returns the first document matching the filter, `updateOne`
  rewrites the first document matching the filter, and `save()` on a document
  obtained from `findOne` rewrites that same document (`_id` is the primary key).
* `Date` values are integers: milliseconds since the Unix epoch.
* `ObjectId`s are natural numbers; the identifier generated by
  `new GameplaySession(...)` is an argument of the start handler.
* Storage failures (the `catch` branches answering 500) are not modelled: every
  storage call succeeds.
* Mongoose casts a query filter through the setters of the schema path:
  `userSchema.username` has `trim: true`, so `User.findOne({ username })` looks
  for the trimmed name.
-/

namespace R36S

/-! ## Data model -/

/-- A document of the `GameplaySession` collection (`gameplaySessionSchema`). -/
structure GameplaySession where
  id : Nat
  userId : Nat
  deviceId : String
  gameName : String
  platform : String
  core : String
  startTime : Int
  endTime : Option Int
  duration : Int
  date : String
  isActive : Bool
  lastPing : Option Int
deriving DecidableEq, Repr

/-- A document of the `Device` collection, restricted to the fields the start
handler reads or writes (`deviceName` and `createdAt` are schema defaults). -/
structure Device where
  userId : Nat
  deviceId : String
  lastSeen : Int
deriving DecidableEq, Repr

/-- A document of the `User` collection, restricted to the fields the gameplay
handlers read. -/
structure User where
  id : Nat
  username : String
  displayName : String
  profilePublic : Bool
deriving DecidableEq, Repr

/-- The database: the session store and the device registry. -/
structure Db where
  sessions : List GameplaySession
  devices : List Device
deriving DecidableEq, Repr

/-- What a handler answers: a JSON body with status 200, or
`res.status(code).json({ error: msg })`. -/
inductive Response (α : Type) where
  | ok (body : α)
  | error (status : Nat) (msg : String)
deriving DecidableEq, Repr

/-! ## JavaScript and MongoDB primitives -/

/-- JavaScript truthiness of a string: every string but the empty one. -/
def truthy (s : String) : Bool := s != ""

/-- The JavaScript expression `x || 0` on a number. -/
def orZero (x : Int) : Int := if x = 0 then 0 else x

/-- Rewrite the first element satisfying `p` (the document `findOne` or
`updateOne` selects) with `f`; the other elements and the order are kept. -/
def modifyFirst {α : Type} (p : α → Bool) (f : α → α) : List α → List α
  | [] => []
  | x :: xs => if p x then f x :: xs else x :: modifyFirst p f xs

/-- Two decimal digits, zero padded. -/
def pad2 (n : Nat) : String :=
  String.mk [Char.ofNat (48 + n / 10 % 10), Char.ofNat (48 + n % 10)]

/-- The year of `toISOString`: four digits for 0..9999, otherwise a sign and
six digits. -/
def isoYear (y : Int) : String :=
  if 0 ≤ y ∧ y ≤ 9999 then pad2 (y.toNat / 100) ++ pad2 (y.toNat % 100)
  else (if y < 0 then "-" else "+") ++
    pad2 (y.natAbs / 10000) ++ pad2 (y.natAbs / 100 % 100) ++ pad2 (y.natAbs % 100)

/-- The expression `startTime.toISOString().split('T')[0]`: the UTC calendar
date `YYYY-MM-DD` of a timestamp in milliseconds (proleptic Gregorian). -/
def isoDate (ms : Int) : String :=
  let days := Int.fdiv ms 86400000
  let z := days + 719468
  let era := Int.fdiv z 146097
  let doe := (z - era * 146097).toNat
  let yoe := (doe - doe / 1460 + doe / 36524 - doe / 146096) / 365
  let doy := doe - (365 * yoe + yoe / 4 - yoe / 100)
  let mp := (5 * doy + 2) / 153
  let d := doy - (153 * mp + 2) / 5 + 1
  let m := if mp < 10 then mp + 3 else mp - 9
  let y := (yoe : Int) + era * 400 + (if m ≤ 2 then 1 else 0)
  isoYear y ++ "-" ++ pad2 m ++ "-" ++ pad2 d

/-! ## Session lifecycle handlers -/

/-- The filter `{ userId, deviceId, gameName, isActive: true }`. -/
def activeFilter (uid : Nat) (deviceId gameName : String) (s : GameplaySession) : Bool :=
  s.userId == uid && s.deviceId == deviceId && s.gameName == gameName && s.isActive

/-- The filter `{ userId, deviceId }` on the device registry. -/
def deviceFilter (uid : Nat) (deviceId : String) (d : Device) : Bool :=
  d.userId == uid && d.deviceId == deviceId

/-- The call `Device.findOneAndUpdate({ userId, deviceId }, { lastSeen }, { upsert: true })`. -/
def upsertLastSeen (devices : List Device) (uid : Nat) (deviceId : String) (t : Int) :
    List Device :=
  match devices.find? (deviceFilter uid deviceId) with
  | some _ => modifyFirst (deviceFilter uid deviceId) (fun d => { d with lastSeen := t }) devices
  | none => devices ++ [{ userId := uid, deviceId := deviceId, lastSeen := t }]

/-- The handler `POST /api/gameplay/start`. `now` is the value of `new Date()`,
`newId` the `_id` of the document `new GameplaySession(...)` builds; a missing
`platform` or `core` takes the schema default `''`. The body is `sessionId`. -/
def gameplayStart (db : Db) (uid : Nat) (deviceId gameName : String)
    (platform core : Option String) (now : Int) (newId : Nat) : Db × Response Nat :=
  if !truthy deviceId || !truthy gameName then
    (db, .error 400 "deviceId and gameName are required")
  else
    let startTime := now
    let date := isoDate startTime
    match db.sessions.find? (activeFilter uid deviceId gameName) with
    | some session =>
      ({ sessions := modifyFirst (activeFilter uid deviceId gameName)
            (fun s => { s with lastPing := some startTime }) db.sessions,
         devices := upsertLastSeen db.devices uid deviceId startTime },
       .ok session.id)
    | none =>
      let session : GameplaySession :=
        { id := newId, userId := uid, deviceId := deviceId, gameName := gameName,
          platform := platform.getD "", core := core.getD "", startTime := startTime,
          endTime := none, duration := 0, date := date, isActive := true,
          lastPing := some startTime }
      ({ sessions := db.sessions ++ [session],
         devices := upsertLastSeen db.devices uid deviceId startTime },
       .ok session.id)

/-- The handler `POST /api/gameplay/end`. `now` is the value of `new Date()`.
The body is `(duration, sessionId)`; `Math.floor(x / 1000)` is floor division. -/
def gameplayEnd (db : Db) (uid : Nat) (deviceId gameName : String) (now : Int) :
    Db × Response (Int × Nat) :=
  if !truthy deviceId || !truthy gameName then
    (db, .error 400 "deviceId and gameName are required")
  else
    match db.sessions.find? (activeFilter uid deviceId gameName) with
    | none => (db, .error 404 "No active session found")
    | some session =>
      let endTime := now
      let duration := Int.fdiv (endTime - session.startTime) 1000
      ({ sessions := modifyFirst (activeFilter uid deviceId gameName)
            (fun s => { s with endTime := some endTime, duration := duration, isActive := false })
            db.sessions,
         devices := db.devices },
       .ok (duration, session.id))

/-- The handler `POST /api/gameplay/ping`. `now` is the value of `new Date()`.
The body is `updated`, that is `result.modifiedCount > 0`: MongoDB counts a
matched document as modified only when the update changed it. -/
def gameplayPing (db : Db) (uid : Nat) (deviceId gameName : String) (now : Int) :
    Db × Response Bool :=
  match db.sessions.find? (activeFilter uid deviceId gameName) with
  | none => (db, .ok false)
  | some session =>
    ({ sessions := modifyFirst (activeFilter uid deviceId gameName)
          (fun s => { s with lastPing := some now }) db.sessions,
       devices := db.devices },
     .ok (decide (session.lastPing ≠ some now)))

/-- One request to the lifecycle manager. -/
inductive Call where
  | start (uid : Nat) (deviceId gameName : String) (platform core : Option String)
      (now : Int) (newId : Nat)
  | finish (uid : Nat) (deviceId gameName : String) (now : Int)
  | ping (uid : Nat) (deviceId gameName : String) (now : Int)
deriving DecidableEq, Repr

/-- The database after one request. -/
def step (db : Db) : Call → Db
  | .start uid d g p c now newId => (gameplayStart db uid d g p c now newId).1
  | .finish uid d g now => (gameplayEnd db uid d g now).1
  | .ping uid d g now => (gameplayPing db uid d g now).1

/-- The database after a sequence of requests executed one after the other. -/
def run (db : Db) (calls : List Call) : Db := calls.foldl step db

/-- Number of sessions of a triple with `isActive = true`. -/
def activeCount (sessions : List GameplaySession) (uid : Nat) (deviceId gameName : String) :
    Nat :=
  sessions.countP (activeFilter uid deviceId gameName)

/-- Every `(userId, deviceId, gameName)` triple has at most one active session. -/
def AtMostOneActive (sessions : List GameplaySession) : Prop :=
  ∀ uid deviceId gameName, activeCount sessions uid deviceId gameName ≤ 1

/-- The document the start handler inserts. -/
def createdSession (uid : Nat) (d g : String) (p c : Option String) (now : Int) (newId : Nat) :
    GameplaySession :=
  { id := newId, userId := uid, deviceId := d, gameName := g,
    platform := p.getD "", core := c.getD "", startTime := now,
    endTime := none, duration := 0, date := isoDate now, isActive := true,
    lastPing := some now }

/-! ## Concurrent execution of two start requests

Node.js runs one handler at a time and switches between requests only at an
`await`. The start handler awaits three storage calls, `findOne`,
`session.save()` and `Device.findOneAndUpdate`; each is one atomic step on the
database, and steps of different requests may alternate in any order. -/

/-- The arguments of one start request. -/
structure StartArgs where
  uid : Nat
  deviceId : String
  gameName : String
  platform : Option String
  core : Option String
  now : Int
  newId : Nat
deriving DecidableEq, Repr

/-- Where a start request stands between its `await`s. -/
inductive StartState where
  | init
  | found (session : Option GameplaySession)
  | saved (sessionId : Nat)
  | answered (r : Response Nat)
deriving DecidableEq, Repr

/-- The update `{ _id: id }` that `save()` of a loaded document sends. -/
def updateById (id : Nat) (f : GameplaySession → GameplaySession) :
    List GameplaySession → List GameplaySession :=
  modifyFirst (fun s => s.id == id) f

/-- One atomic step of a start request: validation and `findOne`; then
`session.save()` (an update of `lastPing` by `_id`, or the insert of the new
document); then the device upsert and the answer. -/
def startAdvance (db : Db) (a : StartArgs) : StartState → Db × StartState
  | .init =>
    if !truthy a.deviceId || !truthy a.gameName then
      (db, .answered (.error 400 "deviceId and gameName are required"))
    else (db, .found (db.sessions.find? (activeFilter a.uid a.deviceId a.gameName)))
  | .found (some session) =>
    ({ sessions := updateById session.id (fun s => { s with lastPing := some a.now })
          db.sessions,
       devices := db.devices }, .saved session.id)
  | .found none =>
    ({ sessions := db.sessions ++
          [createdSession a.uid a.deviceId a.gameName a.platform a.core a.now a.newId],
       devices := db.devices }, .saved a.newId)
  | .saved sessionId =>
    ({ sessions := db.sessions,
       devices := upsertLastSeen db.devices a.uid a.deviceId a.now }, .answered (.ok sessionId))
  | .answered r => (db, .answered r)

/-- The state of two start requests in flight. -/
structure TwoStarts where
  db : Db
  first : StartState
  second : StartState
deriving DecidableEq, Repr

/-- Run a schedule: `false` advances the first request by one step, `true` the
second. -/
def runTwo (a b : StartArgs) : TwoStarts → List Bool → TwoStarts
  | st, [] => st
  | st, false :: rest =>
    runTwo a b { db := (startAdvance st.db a st.first).1,
                 first := (startAdvance st.db a st.first).2, second := st.second } rest
  | st, true :: rest =>
    runTwo a b { db := (startAdvance st.db b st.second).1,
                 first := st.first, second := (startAdvance st.db b st.second).2 } rest

/-- A start request run alone: its three steps with nothing in between. -/
def startAlone (db : Db) (a : StartArgs) : Db × StartState :=
  let s1 := startAdvance db a .init
  let s2 := startAdvance s1.1 a s1.2
  startAdvance s2.1 a s2.2

/-! ## Statistics -/

/-- Comparison of two strings as MongoDB's `$lte` does it: lexicographic, code
point by code point (the order of the UTF-8 bytes). -/
def strLe (a b : String) : Bool := decide (a.toList ≤ b.toList)

/-- The date range of the stats query: `if (startDate && endDate) query.date =
{ $gte: startDate, $lte: endDate }`. A query parameter is absent (`none`) or a
string; the empty string is falsy. -/
def dateBounds (startDate endDate : Option String) : Option (String × String) :=
  match startDate, endDate with
  | some sd, some ed => if truthy sd && truthy ed then some (sd, ed) else none
  | _, _ => none

/-- The filter `{ userId, isActive: false }` with the optional date range. -/
def statsQuery (uid : Nat) (startDate endDate : Option String) (s : GameplaySession) : Bool :=
  s.userId == uid && s.isActive == false &&
    (match dateBounds startDate endDate with
     | none => true
     | some (lo, hi) => strLe lo s.date && strLe s.date hi)

/-- The order of `.sort({ startTime: -1 })`: `a` may come before `b`. -/
def startsNoEarlier (a b : GameplaySession) : Prop := b.startTime ≤ a.startTime

instance startsNoEarlierDecidable : DecidableRel startsNoEarlier :=
  fun a b => inferInstanceAs (Decidable (b.startTime ≤ a.startTime))

instance startsNoEarlierTotal : IsTotal GameplaySession startsNoEarlier :=
  ⟨fun a b => Int.le_total b.startTime a.startTime⟩

instance startsNoEarlierTrans : IsTrans GameplaySession startsNoEarlier :=
  ⟨fun _ _ _ hab hbc => Int.le_trans hbc hab⟩

/-- The cursor `.sort({ startTime: -1 })`: descending start time; documents with
equal start times stay in store order. -/
def sortByStartTimeDesc (l : List GameplaySession) : List GameplaySession :=
  l.insertionSort startsNoEarlier

/-- A value of the object `stats.byGame`. -/
structure GameBucket where
  gameName : String
  platform : String
  totalPlaytime : Int
  sessionCount : Nat
deriving DecidableEq, Repr

/-- A value of the object `stats.byDate`. -/
structure DateBucket where
  date : String
  totalPlaytime : Int
  sessionCount : Nat
deriving DecidableEq, Repr

/-- The property names every object literal `{}` inherits from
`Object.prototype`; reading one of them from a fresh object yields a function
or an object, which is truthy. -/
def objectPrototypeKeys : List String :=
  ["constructor", "__proto__", "hasOwnProperty", "isPrototypeOf", "propertyIsEnumerable",
   "toLocaleString", "toString", "valueOf", "__defineGetter__", "__defineSetter__",
   "__lookupGetter__", "__lookupSetter__"]

/-- One round of the `forEach` body on `stats.byGame`, an object held as the
list of its own properties (each bucket is stored under its `gameName`; the
order of the properties is not modelled). When the key is an own property the
bucket is updated. Otherwise `stats.byGame[key]` is `undefined` and a bucket is
created, unless the key is inherited from `Object.prototype`: then the lookup
is truthy, no bucket is created, and the two `+=` write to the inherited
object, so `stats.byGame` gets no own property. -/
def addByGame (byGame : List GameBucket) (s : GameplaySession) : List GameBucket :=
  if byGame.any (fun b => b.gameName == s.gameName) then
    modifyFirst (fun b => b.gameName == s.gameName)
      (fun b => { b with totalPlaytime := b.totalPlaytime + orZero s.duration,
                         sessionCount := b.sessionCount + 1 }) byGame
  else if objectPrototypeKeys.contains s.gameName then byGame
  else byGame ++ [{ gameName := s.gameName, platform := s.platform,
                    totalPlaytime := 0 + orZero s.duration, sessionCount := 0 + 1 }]

/-- One round of the `forEach` body on `stats.byDate`, as `addByGame`. -/
def addByDate (byDate : List DateBucket) (s : GameplaySession) : List DateBucket :=
  if byDate.any (fun b => b.date == s.date) then
    modifyFirst (fun b => b.date == s.date)
      (fun b => { b with totalPlaytime := b.totalPlaytime + orZero s.duration,
                         sessionCount := b.sessionCount + 1 }) byDate
  else if objectPrototypeKeys.contains s.date then byDate
  else byDate ++ [{ date := s.date, totalPlaytime := 0 + orZero s.duration,
                    sessionCount := 0 + 1 }]

/-- The expression `sessions.reduce((sum, s) => sum + (s.duration || 0), 0)`. -/
def sumPlaytime (sessions : List GameplaySession) : Int :=
  sessions.foldl (fun sum s => sum + orZero s.duration) 0

/-- The expression `[...new Set(sessions.map(s => s.gameName))].length`. -/
def countGames (sessions : List GameplaySession) : Nat :=
  ((sessions.map (fun s => s.gameName)).dedup).length

/-- The body of the answer of `GET /api/gameplay/stats`. -/
structure OwnerStats where
  totalSessions : Nat
  totalPlaytime : Int
  gamesPlayed : Nat
  sessions : List GameplaySession
  byGame : List GameBucket
  byDate : List DateBucket
deriving DecidableEq, Repr

/-- The handler `GET /api/gameplay/stats` for the authenticated user `uid` and
the query parameters `startDate` and `endDate`. -/
def gameplayStats (db : Db) (uid : Nat) (startDate endDate : Option String) : OwnerStats :=
  let sessions := sortByStartTimeDesc (db.sessions.filter (statsQuery uid startDate endDate))
  { totalSessions := sessions.length,
    totalPlaytime := sumPlaytime sessions,
    gamesPlayed := countGames sessions,
    sessions := sessions,
    byGame := sessions.foldl addByGame [],
    byDate := sessions.foldl addByDate [] }

/-- The body of the answer of `GET /api/gameplay/public/:username`. -/
structure PublicStats where
  username : String
  displayName : String
  totalSessions : Nat
  totalPlaytime : Int
  gamesPlayed : Nat
  recentSessions : List GameplaySession
  byGame : List GameBucket
deriving DecidableEq, Repr

/-- The sessions the public handler loads:
`find({ userId, isActive: false }).sort({ startTime: -1 }).limit(100)`. -/
def publicSessions (db : Db) (userId : Nat) : List GameplaySession :=
  (sortByStartTimeDesc
    (db.sessions.filter (fun s => s.userId == userId && s.isActive == false))).take 100

/-- The characters `String.prototype.trim` removes: the white space and line
terminator code points of ECMAScript. -/
def isJsWhitespace (c : Char) : Bool :=
  let n := c.toNat
  n == 0x09 || n == 0x0A || n == 0x0B || n == 0x0C || n == 0x0D || n == 0x20 ||
  n == 0xA0 || n == 0x1680 || (0x2000 ≤ n && n ≤ 0x200A) || n == 0x2028 || n == 0x2029 ||
  n == 0x202F || n == 0x205F || n == 0x3000 || n == 0xFEFF

/-- The method `String.prototype.trim`, the setter `trim: true` of
`userSchema.username` applies: leading and trailing white space removed. -/
def jsTrim (s : String) : String :=
  String.mk ((s.toList.dropWhile isJsWhitespace).reverse.dropWhile isJsWhitespace).reverse

/-- The handler `GET /api/gameplay/public/:username`. The filter of
`User.findOne({ username: req.params.username })` is cast through the schema,
whose `trim: true` setter trims the name before the lookup. -/
def gameplayPublic (users : List User) (db : Db) (username : String) : Response PublicStats :=
  match users.find? (fun u => u.username == jsTrim username) with
  | none => .error 404 "User not found"
  | some user =>
    if !user.profilePublic then .error 403 "This profile is private"
    else
      let sessions := publicSessions db user.id
      .ok { username := user.username,
            displayName := user.displayName,
            totalSessions := sessions.length,
            totalPlaytime := sumPlaytime sessions,
            gamesPlayed := countGames sessions,
            recentSessions := sessions.take 20,
            byGame := sessions.foldl addByGame [] }

/-- The store after Start(1, "dev1", "Zelda") at T0 = 1700000000000 ms. -/
def scenarioStarted : Db :=
  (gameplayStart ⟨[], []⟩ 1 "dev1" "Zelda" none none 1700000000000 7).1

/-- The store after the End of that session 125 s later. -/
def scenarioEnded : Db :=
  (gameplayEnd scenarioStarted 1 "dev1" "Zelda" 1700000125000).1

/-- The date condition of the stats selection as the specification words it:
no condition without bounds, `lo ≤ date ≤ hi` in the lexicographic order of
strings with bounds. -/
def inRange : Option (String × String) → String → Prop
  | none, _ => True
  | some (lo, hi), date => lo ≤ date ∧ date ≤ hi

instance inRangeDecidable : ∀ (bounds : Option (String × String)) (date : String),
    Decidable (inRange bounds date)
  | none, _ => isTrue trivial
  | some (lo, hi), date => inferInstanceAs (Decidable (lo ≤ date ∧ date ≤ hi))

/-- The closed sessions of a user, in store order. -/
def closedOf (db : Db) (uid : Nat) : List GameplaySession :=
  db.sessions.filter (fun s => decide (s.userId = uid ∧ s.isActive = false))

/-- A store with 150 closed sessions of user 2, one started every minute, each
30 s long and of one of three games. -/
def manySessions : Db :=
  { sessions := (List.range 150).map (fun i =>
      { id := i, userId := 2, deviceId := "dev1",
        gameName := if i % 3 = 0 then "Zelda" else if i % 3 = 1 then "Mario" else "Doom",
        platform := "", core := "",
        startTime := 60000 * (i : Int), endTime := some (60000 * (i : Int) + 30000),
        duration := 30, date := "1970-01-01", isActive := false,
        lastPing := some (60000 * (i : Int)) }),
    devices := [] }

/-- The store after Start(1, "dev1", "constructor") at clock 0 and its End 125 s
later. -/
def constructorEnded : Db :=
  (gameplayEnd (gameplayStart ⟨[], []⟩ 1 "dev1" "constructor" none none 0 7).1
    1 "dev1" "constructor" 125000).1

/-- The bucket update of the `forEach` body: add the duration, count one more. -/
def bump (s : GameplaySession) (b : GameBucket) : GameBucket :=
  { b with totalPlaytime := b.totalPlaytime + orZero s.duration,
           sessionCount := b.sessionCount + 1 }

/-- What the sessions seen so far say about the buckets: every bucket holds
the count and the playtime of the sessions of its game, no game has two
buckets, and the games with a bucket are the games seen. -/
structure BucketsMatch (byGame : List GameBucket) (seen : List GameplaySession) : Prop where
  nodup : (byGame.map (fun b => b.gameName)).Nodup
  keys : ∀ g, g ∈ byGame.map (fun b => b.gameName) ↔ g ∈ seen.map (fun s => s.gameName)
  count : ∀ b ∈ byGame, b.sessionCount = seen.countP (fun s => s.gameName == b.gameName)
  playtime : ∀ b ∈ byGame, b.totalPlaytime =
    ((seen.filter (fun s => s.gameName == b.gameName)).map (fun s => s.duration)).sum

/-- A date bucket read off a game bucket whose key is a date. -/
def toDateBucket (b : GameBucket) : DateBucket :=
  { date := b.gameName, totalPlaytime := b.totalPlaytime, sessionCount := b.sessionCount }

/-- A session with its date in the place of its game name. -/
def keyedByDate (s : GameplaySession) : GameplaySession := { s with gameName := s.date }

/-! ## Lemmas on `modifyFirst` -/

theorem modifyFirst_length {α : Type} (p : α → Bool) (f : α → α) (l : List α) :
    (modifyFirst p f l).length = l.length := by
  induction l with
  | nil => rfl
  | cons x xs ih =>
    by_cases hx : p x = true
    · simp [modifyFirst, hx]
    · simp [modifyFirst, hx, ih]

theorem modifyFirst_of_find_none {α : Type} (p : α → Bool) (f : α → α) (l : List α)
    (h : l.find? p = none) : modifyFirst p f l = l := by
  induction l with
  | nil => rfl
  | cons x xs ih =>
    by_cases hx : p x = true
    · simp [List.find?, hx] at h
    · simp only [List.find?, hx] at h
      simp [modifyFirst, hx, ih h]

theorem modifyFirst_append {α : Type} (p : α → Bool) (f : α → α) (pre post : List α) (x : α)
    (hpre : ∀ y ∈ pre, p y = false) (hx : p x = true) :
    modifyFirst p f (pre ++ x :: post) = pre ++ f x :: post := by
  induction pre with
  | nil => simp [modifyFirst, hx]
  | cons y ys ih =>
    have hy : p y = false := hpre y (List.mem_cons_self _ _)
    have ih2 := ih (fun z hz => hpre z (List.mem_cons_of_mem _ hz))
    simp [modifyFirst, hy, ih2]

theorem find_append {α : Type} (p : α → Bool) (pre post : List α) (x : α)
    (hpre : ∀ y ∈ pre, p y = false) (hx : p x = true) :
    (pre ++ x :: post).find? p = some x := by
  induction pre with
  | nil => simp [List.find?, hx]
  | cons y ys ih =>
    have hy : p y = false := hpre y (List.mem_cons_self _ _)
    have ih2 := ih (fun z hz => hpre z (List.mem_cons_of_mem _ hz))
    simp [List.find?, hy, ih2]

theorem modifyFirst_id_of_fix {α : Type} (p : α → Bool) (f : α → α) (l : List α) (x : α)
    (h : l.find? p = some x) (hfx : f x = x) : modifyFirst p f l = l := by
  induction l with
  | nil => simp at h
  | cons y ys ih =>
    by_cases hy : p y = true
    · simp only [List.find?, hy, Option.some.injEq] at h
      subst h
      simp [modifyFirst, hy, hfx]
    · simp only [List.find?, hy] at h
      simp [modifyFirst, hy, ih h]

theorem countP_modifyFirst_le {α : Type} (p q : α → Bool) (f : α → α) (l : List α)
    (hq : ∀ x, q (f x) = true → q x = true) :
    (modifyFirst p f l).countP q ≤ l.countP q := by
  induction l with
  | nil => simp [modifyFirst]
  | cons x xs ih =>
    cases hx : p x
    · have e : modifyFirst p f (x :: xs) = x :: modifyFirst p f xs := by
        simp [modifyFirst, hx]
      rw [e, List.countP_cons, List.countP_cons]
      omega
    · have e : modifyFirst p f (x :: xs) = f x :: xs := by
        simp [modifyFirst, hx]
      rw [e, List.countP_cons, List.countP_cons]
      cases hqf : q (f x)
      · simp
      · simp [hq x hqf]

theorem countP_modifyFirst_eq {α : Type} (p q : α → Bool) (f : α → α) (l : List α)
    (hq : ∀ x, q (f x) = q x) :
    (modifyFirst p f l).countP q = l.countP q := by
  induction l with
  | nil => simp [modifyFirst]
  | cons x xs ih =>
    by_cases hx : p x = true
    · simp [modifyFirst, hx, List.countP_cons, hq x]
    · simp [modifyFirst, hx, List.countP_cons, ih]

theorem countP_eq_zero_of_find_none {α : Type} (p : α → Bool) (l : List α)
    (h : l.find? p = none) : l.countP p = 0 := by
  rw [List.countP_eq_zero]
  intro a ha
  have := List.find?_eq_none.mp h a ha
  simpa using this

/-! ## The at-most-one-active invariant -/

theorem activeFilter_setLastPing (uid : Nat) (d g : String) (t : Option Int)
    (s : GameplaySession) :
    activeFilter uid d g { s with lastPing := t } = activeFilter uid d g s := rfl

theorem gameplayStart_preserves (db : Db) (uid : Nat) (d g : String) (p c : Option String)
    (now : Int) (newId : Nat) (h : AtMostOneActive db.sessions) :
    AtMostOneActive (gameplayStart db uid d g p c now newId).1.sessions := by
  unfold gameplayStart
  split
  · exact h
  · split
    · intro u2 d2 g2
      simp only [activeCount]
      rw [countP_modifyFirst_eq _ _ _ _ (fun x => activeFilter_setLastPing u2 d2 g2 _ x)]
      exact h u2 d2 g2
    · rename_i hnone
      intro u2 d2 g2
      simp only [activeCount, List.countP_append, List.countP_cons, List.countP_nil]
      by_cases hq : activeFilter u2 d2 g2
          { id := newId, userId := uid, deviceId := d, gameName := g,
            platform := p.getD "", core := c.getD "", startTime := now,
            endTime := none, duration := 0, date := isoDate now, isActive := true,
            lastPing := some now } = true
      · have hk : u2 = uid ∧ d2 = d ∧ g2 = g := by
          simp only [activeFilter, Bool.and_eq_true, beq_iff_eq] at hq
          exact ⟨hq.1.1.1.symm, hq.1.1.2.symm, hq.1.2.symm⟩
        obtain ⟨rfl, rfl, rfl⟩ := hk
        rw [countP_eq_zero_of_find_none _ _ hnone]
        simp [hq]
      · have := h u2 d2 g2
        simp only [activeCount] at this
        simp only [hq]
        simpa using this

theorem gameplayEnd_preserves (db : Db) (uid : Nat) (d g : String) (now : Int)
    (h : AtMostOneActive db.sessions) :
    AtMostOneActive (gameplayEnd db uid d g now).1.sessions := by
  unfold gameplayEnd
  split
  · exact h
  · split
    · exact h
    · intro u2 d2 g2
      simp only [activeCount]
      refine le_trans (countP_modifyFirst_le _ _ _ _ ?_) (h u2 d2 g2)
      intro x hx
      simp [activeFilter] at hx

theorem gameplayPing_preserves (db : Db) (uid : Nat) (d g : String) (now : Int)
    (h : AtMostOneActive db.sessions) :
    AtMostOneActive (gameplayPing db uid d g now).1.sessions := by
  unfold gameplayPing
  split
  · exact h
  · intro u2 d2 g2
    simp only [activeCount]
    rw [countP_modifyFirst_eq _ _ _ _ (fun x => activeFilter_setLastPing u2 d2 g2 _ x)]
    exact h u2 d2 g2

theorem step_preserves (db : Db) (call : Call) (h : AtMostOneActive db.sessions) :
    AtMostOneActive (step db call).sessions := by
  cases call with
  | start uid d g p c now newId => exact gameplayStart_preserves db uid d g p c now newId h
  | finish uid d g now => exact gameplayEnd_preserves db uid d g now h
  | ping uid d g now => exact gameplayPing_preserves db uid d g now h

theorem empty_atMostOneActive : AtMostOneActive [] := by
  intro u d g
  simp [activeCount]

/-- C1: from a store in which every (userId, deviceId, gameName) triple has at
most one active session, every finite sequence of Start, End and Ping requests
executed one after the other, with any arguments and clock values, leads to a
store in which every triple still has at most one active session. -/
theorem at_most_one_active_invariant (db : Db) (calls : List Call)
    (h : AtMostOneActive db.sessions) : AtMostOneActive (run db calls).sessions := by
  induction calls generalizing db with
  | nil => exact h
  | cons c cs ih => exact ih (step db c) (step_preserves db c h)

/-- C1 at the empty store: two starts of one triple, a ping, an end and a new
start leave at most one active session per triple. -/
theorem at_most_one_active_invariant_witness :
    AtMostOneActive (Db.sessions ⟨[], []⟩) ∧
    AtMostOneActive (run ⟨[], []⟩
      [.start 1 "dev1" "Zelda" none none 1000 7, .start 1 "dev1" "Zelda" none none 2000 8,
       .ping 1 "dev1" "Zelda" 3000, .finish 1 "dev1" "Zelda" 126000,
       .start 1 "dev1" "Zelda" none none 127000 9]).sessions :=
  ⟨empty_atMostOneActive, at_most_one_active_invariant _ _ empty_atMostOneActive⟩

/-! ## Start, End and Ping on one triple -/

theorem find_none_of_activeCount_zero (l : List GameplaySession) (uid : Nat) (d g : String)
    (h : activeCount l uid d g = 0) : l.find? (activeFilter uid d g) = none := by
  rw [List.find?_eq_none]
  intro x hx
  have := (List.countP_eq_zero.mp h) x hx
  simpa using this

theorem find_some_split {α : Type} (p : α → Bool) (l : List α) (x : α)
    (h : l.find? p = some x) :
    ∃ pre post, l = pre ++ x :: post ∧ (∀ y ∈ pre, p y = false) ∧ p x = true := by
  induction l with
  | nil => simp at h
  | cons y ys ih =>
    cases hy : p y
    · simp only [List.find?, hy] at h
      obtain ⟨pre, post, e, hpre, hx⟩ := ih h
      refine ⟨y :: pre, post, by simp [e], ?_, hx⟩
      intro z hz
      rcases List.mem_cons.mp hz with rfl | hz
      · exact hy
      · exact hpre z hz
    · simp only [List.find?, hy, Option.some.injEq] at h
      subst h
      exact ⟨[], ys, rfl, by simp, hy⟩

theorem truthy_of_ne {s : String} (h : s ≠ "") : truthy s = true := by
  simp [truthy, h]

theorem gameplayStart_fresh (db : Db) (uid : Nat) (d g : String) (p c : Option String)
    (now : Int) (newId : Nat) (hd : d ≠ "") (hg : g ≠ "")
    (hnone : db.sessions.find? (activeFilter uid d g) = none) :
    gameplayStart db uid d g p c now newId =
      ({ sessions := db.sessions ++ [createdSession uid d g p c now newId],
         devices := upsertLastSeen db.devices uid d now }, .ok newId) := by
  simp [gameplayStart, truthy_of_ne hd, truthy_of_ne hg, hnone, createdSession]

theorem gameplayStart_again (db : Db) (uid : Nat) (d g : String) (p c : Option String)
    (now : Int) (newId : Nat) (pre post : List GameplaySession) (x : GameplaySession)
    (hd : d ≠ "") (hg : g ≠ "") (hdb : db.sessions = pre ++ x :: post)
    (hpre : ∀ y ∈ pre, activeFilter uid d g y = false) (hx : activeFilter uid d g x = true) :
    gameplayStart db uid d g p c now newId =
      ({ sessions := pre ++ { x with lastPing := some now } :: post,
         devices := upsertLastSeen db.devices uid d now }, .ok x.id) := by
  have hf := find_append (activeFilter uid d g) pre post x hpre hx
  have hm := modifyFirst_append (activeFilter uid d g)
    (fun s => { s with lastPing := some now }) pre post x hpre hx
  simp [gameplayStart, truthy_of_ne hd, truthy_of_ne hg, hdb, hf, hm]

/-- C2: for non-empty deviceId and gameName and a store with no active session
of the triple, two Start requests in succession (any clock values, any
generated identifiers, any platform and core) both answer the identifier of
the session the first one created; after the second the store is the original
one followed by that session with only lastPing changed (startTime and date are
those of the first request), and the triple has exactly one active session. -/
theorem start_twice_idempotent (db : Db) (uid : Nat) (d g : String)
    (p1 c1 p2 c2 : Option String) (t1 t2 : Int) (id1 id2 : Nat)
    (hd : d ≠ "") (hg : g ≠ "") (hnone : activeCount db.sessions uid d g = 0) :
    (gameplayStart db uid d g p1 c1 t1 id1).2 = .ok id1 ∧
    (gameplayStart db uid d g p1 c1 t1 id1).1.sessions =
      db.sessions ++ [createdSession uid d g p1 c1 t1 id1] ∧
    (gameplayStart (gameplayStart db uid d g p1 c1 t1 id1).1 uid d g p2 c2 t2 id2).2
      = .ok id1 ∧
    (gameplayStart (gameplayStart db uid d g p1 c1 t1 id1).1 uid d g p2 c2 t2 id2).1.sessions
      = db.sessions ++ [{ createdSession uid d g p1 c1 t1 id1 with lastPing := some t2 }] ∧
    activeCount
      (gameplayStart (gameplayStart db uid d g p1 c1 t1 id1).1 uid d g p2 c2 t2 id2).1.sessions
      uid d g = 1 := by
  have hfind := find_none_of_activeCount_zero _ _ _ _ hnone
  have h1 := gameplayStart_fresh db uid d g p1 c1 t1 id1 hd hg hfind
  have hact : activeFilter uid d g (createdSession uid d g p1 c1 t1 id1) = true := by
    simp [activeFilter, createdSession]
  have hpre : ∀ y ∈ db.sessions, activeFilter uid d g y = false := by
    intro y hy
    have := List.find?_eq_none.mp hfind y hy
    simpa using this
  have h2 := gameplayStart_again (gameplayStart db uid d g p1 c1 t1 id1).1 uid d g p2 c2 t2 id2
    db.sessions [] (createdSession uid d g p1 c1 t1 id1) hd hg (by rw [h1]) hpre hact
  refine ⟨by rw [h1], by rw [h1], ?_, ?_, ?_⟩
  · rw [h2]; rfl
  · rw [h2]
  · rw [h2]
    simp only [activeCount, List.countP_append, List.countP_cons, List.countP_nil]
    have hz : List.countP (activeFilter uid d g) db.sessions = 0 := hnone
    have hact2 : activeFilter uid d g
        { createdSession uid d g p1 c1 t1 id1 with lastPing := some t2 } = true := hact
    simp [hz, hact2]

/-- C2 on the empty store: Start(1, "dev1", "Zelda") twice. -/
theorem start_twice_idempotent_witness :
    ("dev1" ≠ "" ∧ "Zelda" ≠ "" ∧ activeCount (Db.sessions ⟨[], []⟩) 1 "dev1" "Zelda" = 0) ∧
    (gameplayStart (gameplayStart ⟨[], []⟩ 1 "dev1" "Zelda" none none 1000 7).1
      1 "dev1" "Zelda" none none 2000 8).2 = .ok 7 :=
  ⟨⟨by decide, by decide, by decide⟩,
   (start_twice_idempotent ⟨[], []⟩ 1 "dev1" "Zelda" none none none none 1000 2000 7 8
      (by decide) (by decide) (by decide)).2.2.1⟩

theorem fdiv_thousand_bounds (x : Int) :
    1000 * Int.fdiv x 1000 ≤ x ∧ x < 1000 * Int.fdiv x 1000 + 1000 := by
  rw [Int.fdiv_eq_ediv x (by decide : (0 : Int) ≤ 1000)]
  omega

/-- C3 (as the code computes it): for non-empty deviceId and gameName, when the
first active session of the triple is `x`, End at clock value `now` answers and
stores duration = floor((now - x.startTime) / 1000), the only integer `dur`
with 1000 * dur ≤ now - x.startTime < 1000 * dur + 1000; it sets endTime to
`now` and isActive to false on that session and changes no other session. The
duration is non-negative when now ≥ startTime and negative when
now < startTime: there is no clamping to zero. -/
theorem end_duration_floor (db : Db) (uid : Nat) (d g : String) (now : Int)
    (pre post : List GameplaySession) (x : GameplaySession)
    (hd : d ≠ "") (hg : g ≠ "") (hdb : db.sessions = pre ++ x :: post)
    (hpre : ∀ y ∈ pre, activeFilter uid d g y = false) (hx : activeFilter uid d g x = true) :
    (gameplayEnd db uid d g now).2 = .ok (Int.fdiv (now - x.startTime) 1000, x.id) ∧
    (gameplayEnd db uid d g now).1.sessions =
      pre ++ { x with endTime := some now, duration := Int.fdiv (now - x.startTime) 1000,
                      isActive := false } :: post ∧
    1000 * Int.fdiv (now - x.startTime) 1000 ≤ now - x.startTime ∧
    now - x.startTime < 1000 * Int.fdiv (now - x.startTime) 1000 + 1000 ∧
    (x.startTime ≤ now → 0 ≤ Int.fdiv (now - x.startTime) 1000) ∧
    (now < x.startTime → Int.fdiv (now - x.startTime) 1000 < 0) := by
  have hf := find_append (activeFilter uid d g) pre post x hpre hx
  have hm := modifyFirst_append (activeFilter uid d g)
    (fun s => { s with endTime := some now, duration := Int.fdiv (now - x.startTime) 1000,
                       isActive := false }) pre post x hpre hx
  have hb := fdiv_thousand_bounds (now - x.startTime)
  refine ⟨?_, ?_, hb.1, hb.2, ?_, ?_⟩
  · simp [gameplayEnd, truthy_of_ne hd, truthy_of_ne hg, hdb, hf]
  · simp [gameplayEnd, truthy_of_ne hd, truthy_of_ne hg, hdb, hf, hm]
  · intro h
    omega
  · intro h
    omega

/-- C3 scenario: Start at T0 = 1700000000000 ms, End 125 s later: duration 125. -/
theorem end_duration_floor_witness :
    (gameplayEnd ⟨[createdSession 1 "dev1" "Zelda" none none 1700000000000 7], []⟩
      1 "dev1" "Zelda" 1700000125000).2 = .ok (125, 7) :=
  (end_duration_floor ⟨[createdSession 1 "dev1" "Zelda" none none 1700000000000 7], []⟩
    1 "dev1" "Zelda" 1700000125000 [] [] _ (by decide) (by decide) rfl
    (by simp) (by decide)).1

/-- C3 fails as stated: Start at clock 5000 ms, then End at clock 0 ms (the
clock went back 5 s) answers and stores duration -5, not 0. -/
theorem end_duration_not_clamped :
    (0 : Int) < 5000 ∧
    (gameplayStart ⟨[], []⟩ 1 "dev1" "Zelda" none none 5000 7).2 = .ok 7 ∧
    (gameplayEnd (gameplayStart ⟨[], []⟩ 1 "dev1" "Zelda" none none 5000 7).1
      1 "dev1" "Zelda" 0).2 = .ok (-5, 7) ∧
    (gameplayEnd (gameplayStart ⟨[], []⟩ 1 "dev1" "Zelda" none none 5000 7).1
      1 "dev1" "Zelda" 0).1.sessions.map (fun s => s.duration) = [-5] := by
  decide

/-- C4 (as the code behaves): when the triple has no active session, End
leaves the database unchanged and answers 404 "No active session found" if
deviceId and gameName are both non-empty, and 400 if either is empty. -/
theorem end_without_active (db : Db) (uid : Nat) (d g : String) (now : Int)
    (h : activeCount db.sessions uid d g = 0) :
    (gameplayEnd db uid d g now).1 = db ∧
    (d ≠ "" → g ≠ "" →
      (gameplayEnd db uid d g now).2 = .error 404 "No active session found") ∧
    (d = "" ∨ g = "" →
      (gameplayEnd db uid d g now).2 = .error 400 "deviceId and gameName are required") := by
  have hfind := find_none_of_activeCount_zero _ _ _ _ h
  refine ⟨?_, ?_, ?_⟩
  · unfold gameplayEnd
    split
    · rfl
    · simp [hfind]
  · intro hd hg
    simp [gameplayEnd, truthy_of_ne hd, truthy_of_ne hg, hfind]
  · intro hdg
    rcases hdg with rfl | rfl <;> simp [gameplayEnd, truthy]

/-- C4 scenario: End of a session that was already closed. -/
theorem end_without_active_witness :
    activeCount (gameplayEnd ⟨[createdSession 1 "dev1" "Zelda" none none 0 7], []⟩
        1 "dev1" "Zelda" 125000).1.sessions 1 "dev1" "Zelda" = 0 ∧
    (gameplayEnd (gameplayEnd ⟨[createdSession 1 "dev1" "Zelda" none none 0 7], []⟩
        1 "dev1" "Zelda" 125000).1 1 "dev1" "Zelda" 130000).2
      = .error 404 "No active session found" :=
  ⟨by decide,
   (end_without_active (gameplayEnd ⟨[createdSession 1 "dev1" "Zelda" none none 0 7], []⟩
        1 "dev1" "Zelda" 125000).1 1 "dev1" "Zelda" 130000 (by decide)).2.1
      (by decide) (by decide)⟩

/-- C4 fails as stated: on the empty store, End with an empty deviceId has no
active session to close and answers 400, not 404. -/
theorem end_empty_deviceId_is_400 :
    activeCount (Db.sessions ⟨[], []⟩) 1 "" "Zelda" = 0 ∧
    (gameplayEnd ⟨[], []⟩ 1 "" "Zelda" 0).2
      = .error 400 "deviceId and gameName are required" ∧
    (gameplayEnd ⟨[], []⟩ 1 "" "Zelda" 0).2 ≠ .error 404 "No active session found" := by
  decide

/-- C9 (as the code behaves): Ping never answers an error; `updated` is true
exactly when the triple has an active session and the first one has a lastPing
different from `now`; when `updated` is false the database is unchanged; when
the first active session of the triple is `x`, the database after Ping differs
only in that session's lastPing, set to `now`. -/
theorem ping_heartbeat (db : Db) (uid : Nat) (d g : String) (now : Int) :
    (∃ b, (gameplayPing db uid d g now).2 = .ok b) ∧
    ((gameplayPing db uid d g now).2 = .ok true ↔
      ∃ x, db.sessions.find? (activeFilter uid d g) = some x ∧ x.lastPing ≠ some now) ∧
    ((gameplayPing db uid d g now).2 = .ok false → (gameplayPing db uid d g now).1 = db) ∧
    (∀ pre x post, db.sessions = pre ++ x :: post →
      (∀ y ∈ pre, activeFilter uid d g y = false) → activeFilter uid d g x = true →
      (gameplayPing db uid d g now).1 =
        { sessions := pre ++ { x with lastPing := some now } :: post,
          devices := db.devices }) := by
  refine ⟨?_, ?_, ?_, ?_⟩
  · unfold gameplayPing
    split
    · exact ⟨_, rfl⟩
    · exact ⟨_, rfl⟩
  · cases hf : db.sessions.find? (activeFilter uid d g) with
    | none => simp [gameplayPing, hf]
    | some x => simp [gameplayPing, hf]
  · cases hf : db.sessions.find? (activeFilter uid d g) with
    | none => simp [gameplayPing, hf]
    | some x =>
      simp only [gameplayPing, hf, Response.ok.injEq, decide_eq_false_iff_not, ne_eq,
        Decidable.not_not]
      intro hlp
      have hx : (fun s : GameplaySession => { s with lastPing := some now }) x = x := by
        cases x
        simp only [GameplaySession.mk.injEq, true_and, and_true]
        exact hlp.symm
      rw [modifyFirst_id_of_fix _ _ _ x hf hx]
  · intro pre x post hdb hpre hx
    have hf := find_append (activeFilter uid d g) pre post x hpre hx
    have hm := modifyFirst_append (activeFilter uid d g)
      (fun s => { s with lastPing := some now }) pre post x hpre hx
    simp [gameplayPing, hdb, hf, hm]

/-- C9 scenario: a ping one second after the start updates the session. -/
theorem ping_heartbeat_witness :
    (gameplayPing ⟨[createdSession 1 "dev1" "Zelda" none none 1000 7], []⟩
      1 "dev1" "Zelda" 2000).2 = .ok true :=
  (ping_heartbeat ⟨[createdSession 1 "dev1" "Zelda" none none 1000 7], []⟩
      1 "dev1" "Zelda" 2000).2.1.mpr ⟨_, rfl, by decide⟩

/-- C9 fails as stated: Start at clock 1000 ms, then Ping at the same clock
value: the triple has an active session, yet Ping answers updated = false. -/
theorem ping_same_clock_not_updated :
    activeCount (gameplayStart ⟨[], []⟩ 1 "dev1" "Zelda" none none 1000 7).1.sessions
      1 "dev1" "Zelda" = 1 ∧
    (gameplayPing (gameplayStart ⟨[], []⟩ 1 "dev1" "Zelda" none none 1000 7).1
      1 "dev1" "Zelda" 1000).2 = .ok false := by
  decide

/-! ## Two start requests at once -/

theorem ids_before_ne (pre post : List GameplaySession) (x : GameplaySession)
    (h : ((pre ++ x :: post).map (fun s => s.id)).Nodup) :
    ∀ y ∈ pre, (fun s : GameplaySession => s.id == x.id) y = false := by
  intro y hy
  simp only [List.map_append, List.map_cons] at h
  have hdis := (List.nodup_append.mp h).2.2
  have hne : y.id ≠ x.id := by
    intro e
    exact hdis (List.mem_map_of_mem (fun s => s.id) hy) (by simp [e])
  simpa using hne

/-- On a store whose documents have distinct `_id`s, a start request run alone
in the step model is the handler `gameplayStart`. -/
theorem startAlone_eq_gameplayStart (db : Db) (a : StartArgs)
    (hids : (db.sessions.map (fun s => s.id)).Nodup) :
    startAlone db a =
      ((gameplayStart db a.uid a.deviceId a.gameName a.platform a.core a.now a.newId).1,
       .answered
        (gameplayStart db a.uid a.deviceId a.gameName a.platform a.core a.now a.newId).2) := by
  by_cases hv : (!truthy a.deviceId || !truthy a.gameName) = true
  · simp [startAlone, startAdvance, gameplayStart, hv]
  · cases hf : db.sessions.find? (activeFilter a.uid a.deviceId a.gameName) with
    | none =>
      simp [startAlone, startAdvance, gameplayStart, hv, hf, createdSession]
    | some x =>
      obtain ⟨pre, post, e, hpre, hx⟩ := find_some_split _ _ _ hf
      have hm := modifyFirst_append (activeFilter a.uid a.deviceId a.gameName)
        (fun s => { s with lastPing := some a.now }) pre post x hpre hx
      have hm2 := modifyFirst_append (fun s : GameplaySession => s.id == x.id)
        (fun s => { s with lastPing := some a.now }) pre post x
        (ids_before_ne pre post x (e ▸ hids)) (by simp)
      rw [e] at hf
      simp [startAlone, startAdvance, gameplayStart, hv, hf, e, updateById, hm, hm2]

/-- C10 fails on the code: from the empty store, two start requests for the
triple (1, "dev1", "Zelda") whose steps alternate (both `findOne` calls answer
before either `save()`) both insert a document: the triple ends with two active
sessions and the requests answer the distinct identifiers 7 and 8. -/
theorem concurrent_start_duplicates :
    activeCount (Db.sessions ⟨[], []⟩) 1 "dev1" "Zelda" = 0 ∧
    (runTwo ⟨1, "dev1", "Zelda", none, none, 1000, 7⟩ ⟨1, "dev1", "Zelda", none, none, 1001, 8⟩
      ⟨⟨[], []⟩, .init, .init⟩ [false, true, false, true, false, true]).first
      = .answered (.ok 7) ∧
    (runTwo ⟨1, "dev1", "Zelda", none, none, 1000, 7⟩ ⟨1, "dev1", "Zelda", none, none, 1001, 8⟩
      ⟨⟨[], []⟩, .init, .init⟩ [false, true, false, true, false, true]).second
      = .answered (.ok 8) ∧
    activeCount
      (runTwo ⟨1, "dev1", "Zelda", none, none, 1000, 7⟩ ⟨1, "dev1", "Zelda", none, none, 1001, 8⟩
        ⟨⟨[], []⟩, .init, .init⟩ [false, true, false, true, false, true]).db.sessions
      1 "dev1" "Zelda" = 2 := by
  decide

/-- The race in general: on any store with no active session of a triple with
non-empty deviceId and gameName, two start requests for that triple whose
`findOne` calls both answer before either `save()` both insert, answer their
own new identifiers, and leave the triple with two active sessions. -/
theorem concurrent_start_race (db : Db) (uid : Nat) (d g : String) (p1 c1 p2 c2 : Option String)
    (t1 t2 : Int) (id1 id2 : Nat) (hd : d ≠ "") (hg : g ≠ "")
    (hnone : activeCount db.sessions uid d g = 0) :
    (runTwo ⟨uid, d, g, p1, c1, t1, id1⟩ ⟨uid, d, g, p2, c2, t2, id2⟩ ⟨db, .init, .init⟩
      [false, true, false, true, false, true]).first = .answered (.ok id1) ∧
    (runTwo ⟨uid, d, g, p1, c1, t1, id1⟩ ⟨uid, d, g, p2, c2, t2, id2⟩ ⟨db, .init, .init⟩
      [false, true, false, true, false, true]).second = .answered (.ok id2) ∧
    activeCount
      (runTwo ⟨uid, d, g, p1, c1, t1, id1⟩ ⟨uid, d, g, p2, c2, t2, id2⟩ ⟨db, .init, .init⟩
        [false, true, false, true, false, true]).db.sessions uid d g = 2 := by
  have hfind := find_none_of_activeCount_zero _ _ _ _ hnone
  have hz : List.countP (activeFilter uid d g) db.sessions = 0 := hnone
  have ha1 : activeFilter uid d g (createdSession uid d g p1 c1 t1 id1) = true := by
    simp [activeFilter, createdSession]
  have ha2 : activeFilter uid d g (createdSession uid d g p2 c2 t2 id2) = true := by
    simp [activeFilter, createdSession]
  simp [runTwo, startAdvance, truthy_of_ne hd, truthy_of_ne hg, hfind, activeCount,
    List.countP_append, List.countP_cons, hz, ha1, ha2]

/-- The race on the empty store, for the triple (1, "dev1", "Zelda"). -/
theorem concurrent_start_race_witness :
    activeCount
      (runTwo ⟨1, "dev1", "Zelda", none, none, 1000, 7⟩ ⟨1, "dev1", "Zelda", none, none, 1001, 8⟩
        ⟨⟨[], []⟩, .init, .init⟩ [false, true, false, true, false, true]).db.sessions
      1 "dev1" "Zelda" = 2 :=
  (concurrent_start_race ⟨[], []⟩ 1 "dev1" "Zelda" none none none none 1000 1001 7 8
    (by decide) (by decide) (by decide)).2.2

/-- The same two requests one after the other: one active session, and both
answer its identifier. -/
theorem sequential_start_single :
    (runTwo ⟨1, "dev1", "Zelda", none, none, 1000, 7⟩ ⟨1, "dev1", "Zelda", none, none, 1001, 8⟩
      ⟨⟨[], []⟩, .init, .init⟩ [false, false, false, true, true, true]).first
      = .answered (.ok 7) ∧
    (runTwo ⟨1, "dev1", "Zelda", none, none, 1000, 7⟩ ⟨1, "dev1", "Zelda", none, none, 1001, 8⟩
      ⟨⟨[], []⟩, .init, .init⟩ [false, false, false, true, true, true]).second
      = .answered (.ok 7) ∧
    activeCount
      (runTwo ⟨1, "dev1", "Zelda", none, none, 1000, 7⟩ ⟨1, "dev1", "Zelda", none, none, 1001, 8⟩
        ⟨⟨[], []⟩, .init, .init⟩ [false, false, false, true, true, true]).db.sessions
      1 "dev1" "Zelda" = 1 := by
  decide

/-! ## Owner statistics -/

theorem orZero_eq (x : Int) : orZero x = x := by
  unfold orZero
  split
  · next h => exact h.symm
  · rfl

theorem foldl_playtime (l : List GameplaySession) (a : Int) :
    l.foldl (fun sum s => sum + orZero s.duration) a = a + (l.map (fun s => s.duration)).sum := by
  induction l generalizing a with
  | nil => simp
  | cons x xs ih =>
    rw [List.foldl_cons, ih, orZero_eq, List.map_cons, List.sum_cons]
    omega

theorem sumPlaytime_eq (l : List GameplaySession) :
    sumPlaytime l = (l.map (fun s => s.duration)).sum := by
  simp [sumPlaytime, foldl_playtime]

theorem sortByStartTimeDesc_perm (l : List GameplaySession) :
    (sortByStartTimeDesc l).Perm l :=
  List.perm_insertionSort startsNoEarlier l

theorem sortByStartTimeDesc_sorted (l : List GameplaySession) :
    (sortByStartTimeDesc l).Sorted startsNoEarlier :=
  List.sorted_insertionSort startsNoEarlier l

theorem sumPlaytime_sort (l : List GameplaySession) :
    sumPlaytime (sortByStartTimeDesc l) = (l.map (fun s => s.duration)).sum := by
  rw [sumPlaytime_eq]
  exact ((sortByStartTimeDesc_perm l).map _).sum_eq

theorem strLe_iff (a b : String) : strLe a b = true ↔ a ≤ b := by
  simp [strLe, String.le_iff_toList_le]

/-- The totals of the stats handler are those of the documents its query selects. -/
theorem gameplayStats_totals (db : Db) (uid : Nat) (sd ed : Option String) :
    (gameplayStats db uid sd ed).totalSessions
      = (db.sessions.filter (statsQuery uid sd ed)).length ∧
    (gameplayStats db uid sd ed).totalPlaytime
      = ((db.sessions.filter (statsQuery uid sd ed)).map (fun s => s.duration)).sum := by
  refine ⟨?_, ?_⟩
  · simp only [gameplayStats]
    exact (sortByStartTimeDesc_perm _).length_eq
  · simp only [gameplayStats]
    exact sumPlaytime_sort _

theorem statsQuery_bounds (uid : Nat) (bounds : Option (String × String))
    (hne : ∀ b, bounds = some b → b.1 ≠ "" ∧ b.2 ≠ "") (s : GameplaySession) :
    statsQuery uid (bounds.map Prod.fst) (bounds.map Prod.snd) s
      = decide (s.userId = uid ∧ s.isActive = false ∧ inRange bounds s.date) := by
  cases bounds with
  | none =>
    simp only [statsQuery, dateBounds, Option.map_none', inRange, and_true, Bool.and_true]
    cases h1 : (s.userId == uid) <;> cases h2 : s.isActive <;> simp_all
  | some b =>
    obtain ⟨lo, hi⟩ := b
    obtain ⟨h1, h2⟩ := hne (lo, hi) rfl
    simp only at h1 h2
    have e : dateBounds (some lo) (some hi) = some (lo, hi) := by
      simp [dateBounds, truthy_of_ne h1, truthy_of_ne h2]
    simp only [statsQuery, Option.map_some', e, inRange]
    rw [Bool.eq_iff_iff]
    simp [strLe_iff, and_assoc]

/-- C5 (as the code behaves): with no date bounds, or with both bounds given as
non-empty strings, totalSessions is the number of, and totalPlaytime the sum of
duration over, exactly the sessions of the store with userId = u,
isActive = false and (with bounds) lo ≤ date ≤ hi in the lexicographic order
of strings; active sessions and other users' sessions never contribute. -/
theorem ownerStats_totals_exact (db : Db) (uid : Nat) (bounds : Option (String × String))
    (hne : ∀ b, bounds = some b → b.1 ≠ "" ∧ b.2 ≠ "") :
    (gameplayStats db uid (bounds.map Prod.fst) (bounds.map Prod.snd)).totalSessions
      = (db.sessions.filter (fun s =>
          decide (s.userId = uid ∧ s.isActive = false ∧ inRange bounds s.date))).length ∧
    (gameplayStats db uid (bounds.map Prod.fst) (bounds.map Prod.snd)).totalPlaytime
      = ((db.sessions.filter (fun s =>
          decide (s.userId = uid ∧ s.isActive = false ∧ inRange bounds s.date))).map
            (fun s => s.duration)).sum := by
  have hq : statsQuery uid (bounds.map Prod.fst) (bounds.map Prod.snd)
      = fun s => decide (s.userId = uid ∧ s.isActive = false ∧ inRange bounds s.date) :=
    funext (statsQuery_bounds uid bounds hne)
  have h := gameplayStats_totals db uid (bounds.map Prod.fst) (bounds.map Prod.snd)
  rw [hq] at h
  exact h

/-- C5 scenario: after the End 125 s after the Start, with the bounds
"2023-11-01" and "2023-11-30", the totals are one session and 125 s. -/
theorem ownerStats_totals_exact_witness :
    (gameplayStats scenarioEnded 1 (some "2023-11-01") (some "2023-11-30")).totalSessions = 1 ∧
    (gameplayStats scenarioEnded 1 (some "2023-11-01") (some "2023-11-30")).totalPlaytime
      = 125 := by
  have h := ownerStats_totals_exact scenarioEnded 1 (some ("2023-11-01", "2023-11-30"))
    (by intro b hb; cases hb; exact ⟨by decide, by decide⟩)
  have hq := statsQuery_bounds 1 (some ("2023-11-01", "2023-11-30"))
    (by intro b hb; cases hb; exact ⟨by decide, by decide⟩)
  rw [← funext hq] at h
  exact ⟨h.1.trans (by decide), h.2.trans (by decide)⟩

/-- C5 scenario of the specification: after Start(1, "dev1", "Zelda") alone the
totals are 0; after the End 125 s later totalSessions = 1 and
totalPlaytime = 125. -/
theorem ownerStats_scenario :
    (gameplayStats scenarioStarted 1 none none).totalSessions = 0 ∧
    (gameplayStats scenarioStarted 1 none none).totalPlaytime = 0 ∧
    (gameplayStats scenarioEnded 1 none none).totalSessions = 1 ∧
    (gameplayStats scenarioEnded 1 none none).totalPlaytime = 125 ∧
    (gameplayStats scenarioEnded 1 none none).byGame = [⟨"Zelda", "", 125, 1⟩] := by
  decide

/-- C5 fails as stated: with startDate supplied as the empty string and
endDate = "2023-01-30", the only closed session, dated "2023-11-14", is outside
the bounds, yet the handler applies no date filter and counts it. -/
theorem ownerStats_empty_bound_ignored :
    scenarioEnded.sessions.map (fun s => s.date) = ["2023-11-14"] ∧
    ¬ inRange (some ("", "2023-01-30")) "2023-11-14" ∧
    (gameplayStats scenarioEnded 1 (some "") (some "2023-01-30")).totalSessions = 1 ∧
    (gameplayStats scenarioEnded 1 (some "") (some "2023-01-30")).totalPlaytime = 125 := by
  refine ⟨by decide, ?_, by decide, by decide⟩
  simp only [inRange, String.le_iff_toList_le]
  decide

/-- C6 fails on the code: one closed session of a game named "constructor".
The handler reports totalSessions = 1, totalPlaytime = 125 and gamesPlayed = 1,
but `byGame` has no bucket, so its bucket counts and playtimes sum to 0; the
`byDate` bucket is there. -/
theorem byGame_prototype_key_lost :
    (gameplayStats constructorEnded 1 none none).totalSessions = 1 ∧
    (gameplayStats constructorEnded 1 none none).totalPlaytime = 125 ∧
    (gameplayStats constructorEnded 1 none none).gamesPlayed = 1 ∧
    (gameplayStats constructorEnded 1 none none).byGame = [] ∧
    (((gameplayStats constructorEnded 1 none none).byGame).map (fun b => b.sessionCount)).sum
      = 0 ∧
    (gameplayStats constructorEnded 1 none none).byDate = [⟨"1970-01-01", 125, 1⟩] := by
  decide

theorem countGames_eq (l : List GameplaySession) :
    countGames l = ((l.map (fun s => s.gameName)).toFinset).card := by
  simp [countGames, List.card_toFinset]

/-! ## Buckets -/

theorem sum_map_modifyFirst {α M : Type} [AddCommMonoid M] (p : α → Bool) (f : α → α)
    (g : α → M) (c : M) (l : List α) (hg : ∀ x, g (f x) = g x + c) (hany : l.any p = true) :
    ((modifyFirst p f l).map g).sum = (l.map g).sum + c := by
  induction l with
  | nil => simp at hany
  | cons x xs ih =>
    cases hx : p x
    · have hxs : xs.any p = true := by simpa [hx] using hany
      have e : modifyFirst p f (x :: xs) = x :: modifyFirst p f xs := by
        simp [modifyFirst, hx]
      rw [e, List.map_cons, List.sum_cons, ih hxs, List.map_cons, List.sum_cons, add_assoc]
    · have e : modifyFirst p f (x :: xs) = f x :: xs := by simp [modifyFirst, hx]
      rw [e, List.map_cons, List.sum_cons, hg, List.map_cons, List.sum_cons]
      abel

theorem map_modifyFirst_key {α β : Type} (p : α → Bool) (f : α → α) (k : α → β)
    (l : List α) (hk : ∀ x, k (f x) = k x) : (modifyFirst p f l).map k = l.map k := by
  induction l with
  | nil => rfl
  | cons x xs ih =>
    cases hx : p x
    · simp [modifyFirst, hx, ih]
    · simp [modifyFirst, hx, hk]

theorem modifyFirst_eq_map (k : String) (f : GameBucket → GameBucket) (l : List GameBucket)
    (hnd : (l.map (fun b => b.gameName)).Nodup) :
    modifyFirst (fun b => b.gameName == k) f l
      = l.map (fun b => if b.gameName = k then f b else b) := by
  induction l with
  | nil => rfl
  | cons x xs ih =>
    rw [List.map_cons, List.nodup_cons] at hnd
    by_cases hx : x.gameName = k
    · have hrest : xs.map (fun b => if b.gameName = k then f b else b) = xs := by
        have hid : xs.map (fun b => if b.gameName = k then f b else b) = xs.map id := by
          apply List.map_congr_left
          intro b hb
          have hne : b.gameName ≠ k := by
            intro e
            exact hnd.1 (by rw [hx, ← e]; exact List.mem_map_of_mem _ hb)
          simp [hne]
        rw [hid, List.map_id]
      have e : modifyFirst (fun b => b.gameName == k) f (x :: xs) = f x :: xs := by
        simp [modifyFirst, hx]
      rw [e, List.map_cons, hrest]
      simp [hx]
    · have e : modifyFirst (fun b => b.gameName == k) f (x :: xs)
          = x :: modifyFirst (fun b => b.gameName == k) f xs := by
        simp [modifyFirst, hx]
      rw [e, List.map_cons, ih hnd.2]
      simp [hx]

theorem addByGame_of_mem (acc : List GameBucket) (s : GameplaySession)
    (h : s.gameName ∈ acc.map (fun b => b.gameName)) :
    addByGame acc s = modifyFirst (fun b => b.gameName == s.gameName) (bump s) acc := by
  have hany : acc.any (fun b => b.gameName == s.gameName) = true := by
    rw [List.any_eq_true]
    obtain ⟨b, hb, e⟩ := List.mem_map.mp h
    exact ⟨b, hb, by simpa using e⟩
  simp only [addByGame, hany, if_true]
  rfl

theorem addByGame_of_not_mem (acc : List GameBucket) (s : GameplaySession)
    (h : s.gameName ∉ acc.map (fun b => b.gameName))
    (hplain : objectPrototypeKeys.contains s.gameName = false) :
    addByGame acc s = acc ++ [{ gameName := s.gameName, platform := s.platform,
                                totalPlaytime := s.duration, sessionCount := 1 }] := by
  have hany : acc.any (fun b => b.gameName == s.gameName) = false := by
    rw [Bool.eq_false_iff]
    intro hc
    obtain ⟨b, hb, e⟩ := List.any_eq_true.mp hc
    exact h (List.mem_map.mpr ⟨b, hb, by simpa using e⟩)
  unfold addByGame
  rw [hany, hplain]
  simp [orZero_eq]

theorem addByGame_sums (acc : List GameBucket) (s : GameplaySession)
    (hplain : objectPrototypeKeys.contains s.gameName = false) :
    ((addByGame acc s).map (fun b => b.sessionCount)).sum
      = (acc.map (fun b => b.sessionCount)).sum + 1 ∧
    ((addByGame acc s).map (fun b => b.totalPlaytime)).sum
      = (acc.map (fun b => b.totalPlaytime)).sum + s.duration := by
  by_cases h : s.gameName ∈ acc.map (fun b => b.gameName)
  · have hany : acc.any (fun b => b.gameName == s.gameName) = true := by
      rw [List.any_eq_true]
      obtain ⟨b, hb, e⟩ := List.mem_map.mp h
      exact ⟨b, hb, by simpa using e⟩
    rw [addByGame_of_mem acc s h]
    exact ⟨sum_map_modifyFirst _ _ _ 1 acc (fun _ => rfl) hany,
      sum_map_modifyFirst _ _ _ s.duration acc (fun b => by simp [bump, orZero_eq]) hany⟩
  · rw [addByGame_of_not_mem acc s h hplain]
    simp

theorem foldl_addByGame_sums (l : List GameplaySession) (acc : List GameBucket)
    (hplain : ∀ s ∈ l, objectPrototypeKeys.contains s.gameName = false) :
    ((l.foldl addByGame acc).map (fun b => b.sessionCount)).sum
      = (acc.map (fun b => b.sessionCount)).sum + l.length ∧
    ((l.foldl addByGame acc).map (fun b => b.totalPlaytime)).sum
      = (acc.map (fun b => b.totalPlaytime)).sum + (l.map (fun s => s.duration)).sum := by
  induction l generalizing acc with
  | nil => simp
  | cons x xs ih =>
    have hx := addByGame_sums acc x (hplain x (List.mem_cons_self _ _))
    have hxs := ih (addByGame acc x) (fun s hs => hplain s (List.mem_cons_of_mem _ hs))
    simp only [List.foldl_cons, List.length_cons, List.map_cons, List.sum_cons]
    rw [hxs.1, hxs.2, hx.1, hx.2]
    constructor
    · omega
    · omega

theorem bucketsMatch_nil : BucketsMatch [] [] :=
  ⟨by simp, by simp, by simp, by simp⟩

theorem bucketsMatch_step (acc : List GameBucket) (seen : List GameplaySession)
    (s : GameplaySession) (h : BucketsMatch acc seen)
    (hplain : objectPrototypeKeys.contains s.gameName = false) :
    BucketsMatch (addByGame acc s) (seen ++ [s]) := by
  by_cases hmem : s.gameName ∈ acc.map (fun b => b.gameName)
  · have hkeys : (addByGame acc s).map (fun b => b.gameName) = acc.map (fun b => b.gameName) := by
      rw [addByGame_of_mem acc s hmem]
      exact map_modifyFirst_key _ _ _ _ (fun _ => rfl)
    have hmap : addByGame acc s
        = acc.map (fun b => if b.gameName = s.gameName then bump s b else b) := by
      rw [addByGame_of_mem acc s hmem]
      exact modifyFirst_eq_map _ _ _ h.nodup
    refine ⟨by rw [hkeys]; exact h.nodup, ?_, ?_, ?_⟩
    · intro g
      rw [hkeys, List.map_append, List.mem_append, ← h.keys g]
      constructor
      · exact Or.inl
      · rintro (hg | hg)
        · exact hg
        · simp only [List.map_cons, List.map_nil, List.mem_singleton] at hg
          exact hg ▸ hmem
    · intro b2 hb2
      rw [hmap] at hb2
      obtain ⟨b, hb, rfl⟩ := List.mem_map.mp hb2
      have hc := h.count b hb
      by_cases hk : b.gameName = s.gameName
      · simp [hk, bump, List.countP_append, List.countP_cons, hc]
      · have hk2 : ¬ s.gameName = b.gameName := fun e => hk e.symm
        simp [hk, hk2, List.countP_append, List.countP_cons, hc]
    · intro b2 hb2
      rw [hmap] at hb2
      obtain ⟨b, hb, rfl⟩ := List.mem_map.mp hb2
      have hc := h.playtime b hb
      by_cases hk : b.gameName = s.gameName
      · simp [hk, bump, List.filter_append, List.filter_cons, hc, orZero_eq]
      · have hk2 : ¬ s.gameName = b.gameName := fun e => hk e.symm
        simp [hk, hk2, List.filter_append, List.filter_cons, hc]
  · have hnew := addByGame_of_not_mem acc s hmem hplain
    have hseen : s.gameName ∉ seen.map (fun s => s.gameName) := fun hc =>
      hmem ((h.keys s.gameName).mpr hc)
    have hzero : seen.filter (fun t => t.gameName == s.gameName) = [] := by
      rw [List.filter_eq_nil_iff]
      intro t ht hc
      exact hseen (List.mem_map.mpr ⟨t, ht, by simpa using hc⟩)
    refine ⟨?_, ?_, ?_, ?_⟩
    · rw [hnew, List.map_append]
      refine List.Nodup.append h.nodup (by simp) ?_
      intro g hg hg2
      simp only [List.map_cons, List.map_nil, List.mem_singleton] at hg2
      exact hmem (hg2 ▸ hg)
    · intro g
      rw [hnew, List.map_append, List.map_append, List.mem_append, List.mem_append, h.keys g]
      simp
    · intro b hb
      rw [hnew, List.mem_append, List.mem_singleton] at hb
      rcases hb with hb | rfl
      · have hk2 : ¬ s.gameName = b.gameName := fun e =>
          hmem (e ▸ List.mem_map_of_mem (fun b => b.gameName) hb)
        simp [List.countP_append, List.countP_cons, hk2, h.count b hb]
      · simp [List.countP_append, List.countP_cons, List.countP_eq_length_filter, hzero]
    · intro b hb
      rw [hnew, List.mem_append, List.mem_singleton] at hb
      rcases hb with hb | rfl
      · have hk2 : ¬ s.gameName = b.gameName := fun e =>
          hmem (e ▸ List.mem_map_of_mem (fun b => b.gameName) hb)
        simp [List.filter_append, List.filter_cons, hk2, h.playtime b hb]
      · simp [List.filter_append, List.filter_cons, hzero]

theorem bucketsMatch_foldl (l : List GameplaySession) (acc : List GameBucket)
    (seen : List GameplaySession) (h : BucketsMatch acc seen)
    (hplain : ∀ s ∈ l, objectPrototypeKeys.contains s.gameName = false) :
    BucketsMatch (l.foldl addByGame acc) (seen ++ l) := by
  induction l generalizing acc seen with
  | nil => simpa using h
  | cons x xs ih =>
    have hx := bucketsMatch_step acc seen x h (hplain x (List.mem_cons_self _ _))
    have := ih (addByGame acc x) (seen ++ [x]) hx
      (fun s hs => hplain s (List.mem_cons_of_mem _ hs))
    simpa using this

theorem modifyFirst_map {α β : Type} (e : α → β) (p : β → Bool) (f : α → α) (f2 : β → β)
    (l : List α) (hf : ∀ x, e (f x) = f2 (e x)) :
    modifyFirst p f2 (l.map e) = (modifyFirst (fun x => p (e x)) f l).map e := by
  induction l with
  | nil => rfl
  | cons x xs ih =>
    cases hx : p (e x)
    · simp [modifyFirst, hx, ih]
    · simp [modifyFirst, hx, hf]

theorem addByDate_eq (acc : List GameBucket) (s : GameplaySession) :
    addByDate (acc.map toDateBucket) s = (addByGame acc (keyedByDate s)).map toDateBucket := by
  have hany : (acc.map toDateBucket).any (fun b => b.date == s.date)
      = acc.any (fun b => b.gameName == (keyedByDate s).gameName) := by
    induction acc with
    | nil => rfl
    | cons b bs ih =>
      simp only [List.map_cons, List.any_cons, ih]
      rfl
  have hmod := modifyFirst_map toDateBucket (fun b => b.date == s.date)
    (fun b => { b with totalPlaytime := b.totalPlaytime + orZero (keyedByDate s).duration,
                       sessionCount := b.sessionCount + 1 })
    (fun b => { b with totalPlaytime := b.totalPlaytime + orZero s.duration,
                       sessionCount := b.sessionCount + 1 }) acc (fun _ => rfl)
  unfold addByDate addByGame
  rw [hany]
  cases acc.any (fun b => b.gameName == (keyedByDate s).gameName)
  · by_cases hk : s.date ∈ objectPrototypeKeys
    · simp [hk, keyedByDate]
    · simp [hk, keyedByDate, toDateBucket]
  · simp only [if_true]
    exact hmod

theorem foldl_addByDate_eq (l : List GameplaySession) (acc : List GameBucket) :
    l.foldl addByDate (acc.map toDateBucket)
      = ((l.map keyedByDate).foldl addByGame acc).map toDateBucket := by
  induction l generalizing acc with
  | nil => rfl
  | cons x xs ih =>
    simp only [List.foldl_cons, List.map_cons]
    rw [addByDate_eq, ih]

/-- Bucket conservation away from the inherited property names: when no
selected session has a gameName or a date that `Object.prototype` defines, the
byGame and the byDate bucket counts each sum to the number of sessions, their
playtimes each sum to the total playtime, the bucket of every game holds the
count and the playtime of the sessions of that game, every game has a bucket,
and the number of byGame buckets is gamesPlayed. -/
theorem bucket_conservation (l : List GameplaySession)
    (hgame : ∀ s ∈ l, objectPrototypeKeys.contains s.gameName = false)
    (hdate : ∀ s ∈ l, objectPrototypeKeys.contains s.date = false) :
    ((l.foldl addByGame []).map (fun b => b.sessionCount)).sum = l.length ∧
    ((l.foldl addByDate []).map (fun b => b.sessionCount)).sum = l.length ∧
    ((l.foldl addByGame []).map (fun b => b.totalPlaytime)).sum = sumPlaytime l ∧
    ((l.foldl addByDate []).map (fun b => b.totalPlaytime)).sum = sumPlaytime l ∧
    (∀ b ∈ l.foldl addByGame [],
      b.sessionCount = l.countP (fun s => s.gameName == b.gameName) ∧
      b.totalPlaytime
        = ((l.filter (fun s => s.gameName == b.gameName)).map (fun s => s.duration)).sum) ∧
    (∀ s ∈ l, ∃ b ∈ l.foldl addByGame [], b.gameName = s.gameName) ∧
    (l.foldl addByGame []).length = countGames l := by
  have hg := foldl_addByGame_sums l [] hgame
  have hd := foldl_addByGame_sums (l.map keyedByDate) [] (by
    intro s hs
    obtain ⟨t, ht, rfl⟩ := List.mem_map.mp hs
    exact hdate t ht)
  have hsim : l.foldl addByDate [] = ((l.map keyedByDate).foldl addByGame []).map toDateBucket :=
    foldl_addByDate_eq l []
  have hm := bucketsMatch_foldl l [] [] bucketsMatch_nil hgame
  rw [List.nil_append] at hm
  refine ⟨by simpa using hg.1, ?_, by simpa [sumPlaytime_eq] using hg.2, ?_, ?_, ?_, ?_⟩
  · rw [hsim, List.map_map]
    have := hd.1
    simpa [Function.comp_def, toDateBucket] using this
  · rw [hsim, List.map_map, sumPlaytime_eq]
    have := hd.2
    simpa [Function.comp_def, toDateBucket, keyedByDate] using this
  · intro b hb
    exact ⟨hm.count b hb, hm.playtime b hb⟩
  · intro s hs
    have := (hm.keys s.gameName).mpr (List.mem_map_of_mem (fun s => s.gameName) hs)
    obtain ⟨b, hb, e⟩ := List.mem_map.mp this
    exact ⟨b, hb, e⟩
  · have hset : ((l.foldl addByGame []).map (fun b => b.gameName)).toFinset
        = (l.map (fun s => s.gameName)).toFinset := by
      ext g
      simp only [List.mem_toFinset]
      exact hm.keys g
    rw [countGames_eq, ← hset, List.toFinset_card_of_nodup hm.nodup, List.length_map]

/-- Bucket conservation on the 150 sessions of `manySessions`: three games, one date. -/
theorem bucket_conservation_witness :
    ((manySessions.sessions.foldl addByGame []).map (fun b => b.sessionCount)).sum = 150 ∧
    ((manySessions.sessions.foldl addByDate []).map (fun b => b.sessionCount)).sum = 150 := by
  have hlen : manySessions.sessions.length = 150 := by simp [manySessions]
  have h := bucket_conservation manySessions.sessions
    (by
      intro s hs
      simp only [manySessions, List.mem_map] at hs
      obtain ⟨i, _, rfl⟩ := hs
      simp only
      split
      · decide
      · split <;> decide)
    (by
      intro s hs
      simp only [manySessions, List.mem_map] at hs
      obtain ⟨i, _, rfl⟩ := hs
      show objectPrototypeKeys.contains "1970-01-01" = false
      decide)
  exact ⟨h.1.trans hlen, h.2.1.trans hlen⟩

/-! ## Public statistics -/

/-- C7 (as the code behaves): the lookup is by the username with leading and
trailing white space removed. The public handler answers 404 when no user has
the trimmed username, 403 when the user found has profilePublic = false,
whatever the session store holds (an error answer carries a status and a
message only), and a statistics body exactly when a user is found whose
profilePublic is true. -/
theorem publicStats_access (users : List User) (db : Db) (username : String) :
    ((∀ u ∈ users, u.username ≠ jsTrim username) →
      gameplayPublic users db username = .error 404 "User not found") ∧
    (∀ u, users.find? (fun u => u.username == jsTrim username) = some u →
      u.profilePublic = false →
      gameplayPublic users db username = .error 403 "This profile is private") ∧
    ((∃ st, gameplayPublic users db username = .ok st) ↔
      ∃ u, users.find? (fun u => u.username == jsTrim username) = some u ∧
        u.profilePublic = true) := by
  refine ⟨?_, ?_, ?_⟩
  · intro h
    have hf : users.find? (fun u => u.username == jsTrim username) = none := by
      rw [List.find?_eq_none]
      intro u hu
      simpa using h u hu
    simp [gameplayPublic, hf]
  · intro u hu hp
    simp [gameplayPublic, hu, hp]
  · cases hf : users.find? (fun u => u.username == jsTrim username) with
    | none => simp [gameplayPublic, hf]
    | some u =>
      cases hp : u.profilePublic <;> simp [gameplayPublic, hf, hp]

/-- C7 scenario: a private user "user2" with 150 closed sessions, asked for by
name and by a padded name, and an unknown name. -/
theorem publicStats_access_witness :
    gameplayPublic [⟨2, "user2", "", false⟩] manySessions "user2"
      = .error 403 "This profile is private" ∧
    gameplayPublic [⟨2, "user2", "", false⟩] manySessions " user2 "
      = .error 403 "This profile is private" ∧
    gameplayPublic [⟨2, "user2", "", false⟩] manySessions "nobody"
      = .error 404 "User not found" :=
  ⟨(publicStats_access [⟨2, "user2", "", false⟩] manySessions "user2").2.1
      ⟨2, "user2", "", false⟩ (by decide) rfl,
   (publicStats_access [⟨2, "user2", "", false⟩] manySessions " user2 ").2.1
      ⟨2, "user2", "", false⟩ (by decide) rfl,
   (publicStats_access [⟨2, "user2", "", false⟩] manySessions "nobody").1 (by decide)⟩

/-- C7 fails as stated: no user has the username " user2" (with a leading
space), yet the handler finds the user "user2": it answers statistics when the
profile is public and 403 when it is private, not 404. -/
theorem publicStats_padded_name_found :
    (∀ u ∈ [(⟨2, "user2", "", true⟩ : User)], u.username ≠ " user2") ∧
    gameplayPublic [⟨2, "user2", "", true⟩] ⟨[], []⟩ " user2"
      = .ok ⟨"user2", "", 0, 0, 0, [], []⟩ ∧
    gameplayPublic [⟨2, "user2", "", false⟩] ⟨[], []⟩ " user2"
      = .error 403 "This profile is private" := by
  decide

theorem take_min_length {α : Type} (l : List α) (k : Nat) :
    l.take (min l.length k) = l.take k := by
  by_cases h : l.length ≤ k
  · rw [Nat.min_eq_left h, List.take_of_length_le (le_refl _), List.take_of_length_le h]
  · rw [Nat.min_eq_right (by omega)]

theorem publicSessions_eq (db : Db) (uid : Nat) :
    publicSessions db uid = (sortByStartTimeDesc (closedOf db uid)).take 100 := by
  have e : (fun s : GameplaySession => s.userId == uid && s.isActive == false)
      = fun s => decide (s.userId = uid ∧ s.isActive = false) := by
    funext s
    rw [Bool.eq_iff_iff]
    simp
  simp only [publicSessions, closedOf, e]

/-- C8: for a user found by the (trimmed) username whose profile is public, with n closed
sessions, let L be the first min(n, 100) of these sessions in descending order
of startTime (a sorted permutation of the closed sessions). The answer has
totalSessions = min(n, 100), totalPlaytime = the sum of duration over L,
gamesPlayed = the number of distinct gameName in L, byGame = the buckets folded
over L, and recentSessions = the first min(n, 20) elements of L, of length
min(n, 20) ≤ 20. -/
theorem publicStats_caps (users : List User) (db : Db) (username : String) (u : User)
    (hu : users.find? (fun u => u.username == jsTrim username) = some u)
    (hpub : u.profilePublic = true) :
    ∃ st, gameplayPublic users db username = .ok st ∧
      (sortByStartTimeDesc (closedOf db u.id)).Perm (closedOf db u.id) ∧
      (sortByStartTimeDesc (closedOf db u.id)).Sorted startsNoEarlier ∧
      st.totalSessions = min (closedOf db u.id).length 100 ∧
      st.totalPlaytime =
        (((sortByStartTimeDesc (closedOf db u.id)).take (min (closedOf db u.id).length 100)).map
          (fun s => s.duration)).sum ∧
      st.gamesPlayed =
        ((((sortByStartTimeDesc (closedOf db u.id)).take (min (closedOf db u.id).length 100)).map
          (fun s => s.gameName)).toFinset).card ∧
      st.byGame =
        ((sortByStartTimeDesc (closedOf db u.id)).take
          (min (closedOf db u.id).length 100)).foldl addByGame [] ∧
      st.recentSessions =
        (((sortByStartTimeDesc (closedOf db u.id)).take
          (min (closedOf db u.id).length 100)).take (min (closedOf db u.id).length 20)) ∧
      st.recentSessions.length = min (closedOf db u.id).length 20 ∧
      st.recentSessions.length ≤ 20 := by
  have hlen : (sortByStartTimeDesc (closedOf db u.id)).length = (closedOf db u.id).length :=
    (sortByStartTimeDesc_perm _).length_eq
  have hL : (sortByStartTimeDesc (closedOf db u.id)).take (min (closedOf db u.id).length 100)
      = publicSessions db u.id := by
    rw [publicSessions_eq, ← hlen, take_min_length]
  have hLlen : (publicSessions db u.id).length = min (closedOf db u.id).length 100 := by
    rw [publicSessions_eq, List.length_take, hlen, Nat.min_comm]
  have hrec : (publicSessions db u.id).take 20
      = (publicSessions db u.id).take (min (closedOf db u.id).length 20) := by
    by_cases h : (closedOf db u.id).length ≤ 20
    · rw [Nat.min_eq_left h, List.take_of_length_le (by omega),
        List.take_of_length_le (by omega)]
    · rw [Nat.min_eq_right (by omega)]
  have hreclen : ((publicSessions db u.id).take 20).length
      = min (closedOf db u.id).length 20 := by
    rw [List.length_take, hLlen]
    omega
  refine ⟨_, by simp only [gameplayPublic, hu, hpub]; rfl, sortByStartTimeDesc_perm _,
    sortByStartTimeDesc_sorted _, ?_, ?_, ?_, ?_, ?_, ?_, ?_⟩
  · exact hLlen
  · rw [hL]; exact sumPlaytime_eq _
  · rw [hL]; exact countGames_eq _
  · rw [hL]
  · rw [hL]; exact hrec
  · exact hreclen
  · show ((publicSessions db u.id).take 20).length ≤ 20
    rw [hreclen]
    exact Nat.min_le_right _ _

/-- C8 scenario: a public user with 150 closed sessions gets totalSessions = 100
and 20 recent sessions. -/
theorem publicStats_caps_witness :
    ∃ st, gameplayPublic [⟨2, "user2", "", true⟩] manySessions "user2" = .ok st ∧
      (closedOf manySessions 2).length = 150 ∧
      st.totalSessions = 100 ∧ st.recentSessions.length = 20 := by
  obtain ⟨st, h, _, _, ht, _, _, _, _, hr, _⟩ :=
    publicStats_caps [⟨2, "user2", "", true⟩] manySessions "user2" ⟨2, "user2", "", true⟩
      (by decide) rfl
  have hn : (closedOf manySessions 2).length = 150 := by
    have hall : closedOf manySessions 2 = manySessions.sessions := by
      unfold closedOf
      rw [List.filter_eq_self]
      intro s hs
      simp only [manySessions, List.mem_map] at hs
      obtain ⟨i, _, rfl⟩ := hs
      simp
    rw [hall]
    simp [manySessions]
  refine ⟨st, h, hn, ?_, ?_⟩
  · rw [ht, hn]; rfl
  · rw [hr, hn]; rfl

/-! ## One date bound alone -/

theorem mem_stats_sessions (db : Db) (uid : Nat) (sd ed : Option String) (s : GameplaySession) :
    s ∈ (gameplayStats db uid sd ed).sessions
      ↔ s ∈ db.sessions ∧ statsQuery uid sd ed s = true := by
  simp only [gameplayStats]
  rw [(sortByStartTimeDesc_perm _).mem_iff, List.mem_filter]

/-- C11 (as the code behaves): the date bounds of OwnerStats are applied only
together. With startDate alone, or endDate alone, the answer is the answer
without bounds: every closed session of the user, whatever its date. With both
bounds given as non-empty strings, the sessions of the answer are those of the
answer without bounds whose date satisfies lo ≤ date ≤ hi in the lexicographic
order of strings. -/
theorem ownerStats_bounds_only_together (db : Db) (uid : Nat) (b : String) :
    gameplayStats db uid (some b) none = gameplayStats db uid none none ∧
    gameplayStats db uid none (some b) = gameplayStats db uid none none ∧
    (∀ lo hi : String, lo ≠ "" → hi ≠ "" → ∀ s,
      s ∈ (gameplayStats db uid (some lo) (some hi)).sessions ↔
        s ∈ (gameplayStats db uid none none).sessions ∧ lo ≤ s.date ∧ s.date ≤ hi) := by
  refine ⟨rfl, rfl, ?_⟩
  intro lo hi hlo hhi s
  have hq := statsQuery_bounds uid (some (lo, hi))
    (by intro c hc; cases hc; exact ⟨hlo, hhi⟩) s
  have hq0 := statsQuery_bounds uid none (by intro c hc; cases hc) s
  simp only [Option.map_some', Option.map_none'] at hq hq0
  rw [mem_stats_sessions, mem_stats_sessions, hq, hq0]
  simp only [inRange, decide_eq_true_eq, and_true]
  tauto

/-- C11 scenario: the session of 2023-11-14 is in the answer for the bounds
"2023-11-01" and "2023-11-30". -/
theorem ownerStats_bounds_only_together_witness :
    ("2023-11-01" ≠ "" ∧ "2023-11-30" ≠ "") ∧
    ∀ s, s ∈ (gameplayStats scenarioEnded 1 (some "2023-11-01") (some "2023-11-30")).sessions ↔
      s ∈ (gameplayStats scenarioEnded 1 none none).sessions ∧
        "2023-11-01" ≤ s.date ∧ s.date ≤ "2023-11-30" :=
  ⟨⟨by decide, by decide⟩,
   (ownerStats_bounds_only_together scenarioEnded 1 "2023-11-01").2.2
      "2023-11-01" "2023-11-30" (by decide) (by decide)⟩

/-- C11 fails as stated: the only closed session is dated "2023-11-14". With
startDate = "2024-01-01" alone it is in the answer and in the totals although
its date is before startDate; with endDate = "2023-01-30" alone it is in the
answer and in the totals although its date is after endDate. -/
theorem ownerStats_single_bound_ignored :
    (gameplayStats scenarioEnded 1 (some "2024-01-01") none).sessions.map (fun s => s.date)
      = ["2023-11-14"] ∧
    (gameplayStats scenarioEnded 1 (some "2024-01-01") none).totalSessions = 1 ∧
    ¬ ("2024-01-01" ≤ "2023-11-14") ∧
    (gameplayStats scenarioEnded 1 none (some "2023-01-30")).sessions.map (fun s => s.date)
      = ["2023-11-14"] ∧
    (gameplayStats scenarioEnded 1 none (some "2023-01-30")).totalSessions = 1 ∧
    ¬ ("2023-11-14" ≤ "2023-01-30") := by
  refine ⟨by decide, by decide, ?_, by decide, by decide, ?_⟩
  · rw [String.le_iff_toList_le]
    decide
  · rw [String.le_iff_toList_le]
    decide

/-! ## Trimming -/

/-- The method `trim` on some names: padding is removed at both ends, inner
white space is kept, a blank name becomes empty. -/
theorem jsTrim_samples :
    jsTrim " user2 " = "user2" ∧ jsTrim "user2" = "user2" ∧ jsTrim "a b" = "a b" ∧
    jsTrim "\t user2\n" = "user2" ∧ jsTrim "  " = "" := by
  decide

/-! ## Calendar dates -/

/-- The date of `toISOString` at some known instants: the epoch, one
millisecond before it, a leap day, a recent date and the first five-digit year. -/
theorem isoDate_samples :
    isoDate 0 = "1970-01-01" ∧ isoDate (-1) = "1969-12-31" ∧
    isoDate 951782400000 = "2000-02-29" ∧ isoDate 1700000000000 = "2023-11-14" ∧
    isoDate 253402300800000 = "+010000-01-01" := by
  decide

end R36S
